import Mathlib

/-
Verification of the interaction engine of the SuperMario_Python repository
(src/app.py and src/player.py) against its natural-language specification.

The engine's behaviour handlers and collision dispatch live in src/app.py and
are translated here as pure functions over an explicit world state.  The
support library (the `game` package: World registry, base entity classes,
direction resolution) is not part of src/; those collaborators are modelled
from the spec and carry a doc comment starting with "Modelled from the spec".

Python object identity is modelled by giving every entity a numeric identity
`eid`; the registry invariant of spec section 3 ("every entity present in the
physics backend has exactly one corresponding registry entry") appears as a
Nodup hypothesis on the registry's identities where a proof needs it.

The source schedules its deferred effects with threading.Timer (src/app.py
lines 105-108, 144, 174, 212, 250).  Each such Timer(delay, fn, args) call is
recorded here as a pending deferred event (spec section 3, "Deferred Event"),
and firing an event is a pure state transition; the real-time/threading side
of Timer is outside this embedding.
-/

/-- The four resolved contact directions returned by get_collision_direction
(game/util.py, outside src/): "A", "B", "L", "R", from the first entity's
perspective.  The handlers below take the resolved direction of the contact as
a parameter; spec section 4.2 says resolution is deterministic for a given
geometric overlap, so every call on the same contact yields the same value. -/
inductive Direction where
  | A
  | B
  | L
  | R
  deriving DecidableEq

/-- A block entity: identity, kind string (source `get_id()`), mirrored
position, and the `_active` flag used by Switch and Bounce (src/app.py). -/
structure BlockEnt where
  eid : Nat
  kind : String
  pos : Int × Int
  active : Bool
  deriving DecidableEq

/-- A mob entity: identity, kind string, mirrored position and velocity, the
`tempo` of game/mob.py's Mob, and the `_squished` flag of Mushroom/Gang. -/
structure MobEnt where
  eid : Nat
  kind : String
  pos : Int × Int
  vel : Int × Int
  tempo : Int
  squished : Bool
  deriving DecidableEq

/-- A dropped item entity: identity, kind string, mirrored position. -/
structure ItemEnt where
  eid : Nat
  kind : String
  pos : Int × Int
  deriving DecidableEq

/-- The player (src/player.py): health and score counters plus the niubi
(invincible), duck, shoot and jumping flags, with mirrored position and
velocity. -/
structure Player where
  health : Int
  score : Int
  niubi : Bool
  duck : Bool
  shoot : Bool
  jumping : Bool
  pos : Int × Int
  vel : Int × Int
  deriving DecidableEq

/-- The distinct deferred actions created by the source's Timer calls:
Switch reactivation and brick restoration (src/app.py lines 105-108), the
Bounce revert (line 144), squished-mob removal (lines 174, 212), and
invincibility expiry (line 250). -/
inductive TimerAction where
  | switchReactivate (eid : Nat)
  | bricksRecover (brick_list : List (BlockEnt × Int × Int))
  | bounceRevert (eid : Nat)
  | removeMobEvt (eid : Nat)
  | niubiOff
  deriving DecidableEq

/-- A pending deferred event: fire delay in time-units and the action
(spec section 3, "Deferred Event"). -/
structure TimerEvt where
  delay : ℚ
  action : TimerAction
  deriving DecidableEq

/-- The world state: the entity registry split by category plus the pending
deferred events (spec section 3, "World"). -/
structure World where
  blocks : List BlockEnt
  mobs : List MobEnt
  items : List ItemEnt
  timers : List TimerEvt
  deriving DecidableEq

/-- Look an entity up by identity in a registry list (Python object lookup). -/
def findById {α : Type} (key : α → Nat) (eid : Nat) (l : List α) : Option α :=
  l.find? (fun x => key x == eid)

/-- Mutate the entity with the given identity in place (Python attribute
assignment on a registry-shared object). -/
def updById {α : Type} (key : α → Nat) (eid : Nat) (f : α → α) (l : List α) : List α :=
  l.map (fun x => if key x = eid then f x else x)

/-- Drop the entity with the given identity from a registry list. -/
def removeById {α : Type} (key : α → Nat) (eid : Nat) (l : List α) : List α :=
  l.filter (fun x => key x != eid)

def getBlock (w : World) (eid : Nat) : Option BlockEnt :=
  findById BlockEnt.eid eid w.blocks

def getMob (w : World) (eid : Nat) : Option MobEnt :=
  findById MobEnt.eid eid w.mobs

def getItem (w : World) (eid : Nat) : Option ItemEnt :=
  findById ItemEnt.eid eid w.items

def upd_block (w : World) (eid : Nat) (f : BlockEnt → BlockEnt) : World :=
  { w with blocks := updById BlockEnt.eid eid f w.blocks }

def upd_mob (w : World) (eid : Nat) (f : MobEnt → MobEnt) : World :=
  { w with mobs := updById MobEnt.eid eid f w.mobs }

/-- Modelled from the spec: World.remove_block (game/world.py, outside src/);
spec section 3 requires removal to delete the entity's single registry entry. -/
def remove_block (w : World) (eid : Nat) : World :=
  { w with blocks := removeById BlockEnt.eid eid w.blocks }

/-- Modelled from the spec: World.remove_mob (game/world.py, outside src/). -/
def remove_mob (w : World) (eid : Nat) : World :=
  { w with mobs := removeById MobEnt.eid eid w.mobs }

/-- Modelled from the spec: World.remove_item (game/world.py, outside src/). -/
def remove_item (w : World) (eid : Nat) : World :=
  { w with items := removeById ItemEnt.eid eid w.items }

/-- Modelled from the spec: World.add_block(block, x, y) (game/world.py,
outside src/) inserts the block into the registry at the given coordinates. -/
def add_block (w : World) (b : BlockEnt) (x y : Int) : World :=
  { w with blocks := w.blocks ++ [{ b with pos := (x, y) }] }

/-- Record one Timer(delay, fn, args) call of the source as a pending deferred
event; spec section 3 orders pending events by fire time with FIFO ties, so a
later call goes after an earlier one with the same delay. -/
def add_timer (w : World) (t : TimerEvt) : World :=
  { w with timers := w.timers ++ [t] }

/-- Squared Euclidean distance between two mirrored positions. -/
def dist2 (a b : Int × Int) : Int :=
  (a.1 - b.1) * (a.1 - b.1) + (a.2 - b.2) * (a.2 - b.2)

/-- Modelled from the spec: World.get_things_in_range(x, y, r) (game/world.py,
outside src/); spec section 6 describes it as a "range query by point and
radius returning entities overlapping that radius".  Its sole caller here,
Switch.on_hit, keeps only things with `_type == 2` (blocks), so the query is
modelled directly on the block registry, keeping blocks whose position lies
within distance r of the query point. -/
def get_blocks_in_range (w : World) (x y r : Int) : List BlockEnt :=
  w.blocks.filter (fun b => decide (dist2 b.pos (x, y) ≤ r * r))

/-- Modelled from the spec: DynamicEntity.change_health (game/entity.py,
outside src/).  The spec (section 4.3) speaks of damaging or healing the
player by a fixed amount, so health is modelled as an additive counter. -/
def change_health (p : Player) (d : Int) : Player :=
  { p with health := p.health + d }

/-- Switch.blocks_recover (src/app.py lines 110-118): re-add every recorded
brick at its recorded coordinates via world.add_block. -/
def blocks_recover (brick_list : List (BlockEnt × Int × Int)) (w : World) : World :=
  brick_list.foldl (fun acc n => add_block acc n.1 n.2.1 n.2.2) w

/-- Switch.on_hit (src/app.py lines 84-108).  Returns early unless the contact
direction is "A"; while active it deactivates itself, removes every brick
returned by the radius-60 range query, and starts two 10-second timers:
reactivation (Timer(10, self.set_active, [True])) and brick restoration
(Timer(10, self.blocks_recover, [brick_list, world])). -/
def switch_on_hit (dir : Direction) (w : World) (eid : Nat) : World :=
  match getBlock w eid with
  | none => w
  | some sw =>
    if dir ≠ Direction.A then w
    else if sw.active then
      let w1 := upd_block w eid (fun b => { b with active := false })
      let things := get_blocks_in_range w1 sw.pos.1 sw.pos.2 60
      let bricks := things.filter (fun t => t.kind == "brick")
      let brick_list := bricks.map (fun t => (t, t.pos.1, t.pos.2))
      let w2 := bricks.foldl (fun acc t => remove_block acc t.eid) w1
      add_timer (add_timer w2 ⟨10, TimerAction.switchReactivate eid⟩)
        ⟨10, TimerAction.bricksRecover brick_list⟩
    else w

/-- Bounce.on_hit (src/app.py lines 138-145): on an "A" contact set `_active`,
assign the player velocity (0, -400), and start Timer(0.5, set_active, [False]).
There is no is_active() guard. -/
def bounce_on_hit (dir : Direction) (w : World) (p : Player) (eid : Nat) : World × Player :=
  match getBlock w eid with
  | none => (w, p)
  | some _ =>
    if dir = Direction.A then
      (add_timer (upd_block w eid (fun b => { b with active := true }))
        ⟨1 / 2, TimerAction.bounceRevert eid⟩,
       { p with vel := (0, -400) })
    else (w, p)

/-- Mushroom.on_hit (src/app.py lines 166-183): from "A", squish, bounce the
player up slightly, stop moving, and start Timer(0.4, world.remove_mob, [self]);
from "R"/"L", damage the player by 1, knock the player back, and reverse tempo. -/
def mushroom_on_hit (dir : Direction) (w : World) (p : Player) (eid : Nat) : World × Player :=
  match getMob w eid with
  | none => (w, p)
  | some _ =>
    if dir = Direction.A then
      (add_timer (upd_mob w eid (fun m => { m with squished := true, tempo := 0 }))
        ⟨2 / 5, TimerAction.removeMobEvt eid⟩,
       { p with vel := (0, -100) })
    else if dir = Direction.R then
      (upd_mob w eid (fun m => { m with tempo := -m.tempo }),
       { change_health p (-1) with vel := (50, 0) })
    else if dir = Direction.L then
      (upd_mob w eid (fun m => { m with tempo := -m.tempo }),
       { change_health p (-1) with vel := (-50, 0) })
    else (w, p)

/-- Gang.on_hit (src/app.py lines 204-219): identical to Mushroom.on_hit
except that the side-contact branches do not touch the gang's tempo. -/
def gang_on_hit (dir : Direction) (w : World) (p : Player) (eid : Nat) : World × Player :=
  match getMob w eid with
  | none => (w, p)
  | some _ =>
    if dir = Direction.A then
      (add_timer (upd_mob w eid (fun m => { m with squished := true, tempo := 0 }))
        ⟨2 / 5, TimerAction.removeMobEvt eid⟩,
       { p with vel := (0, -100) })
    else if dir = Direction.R then
      (w, { change_health p (-1) with vel := (50, 0) })
    else if dir = Direction.L then
      (w, { change_health p (-1) with vel := (-50, 0) })
    else (w, p)

/-- Gang.step (src/app.py lines 221-235): read the current velocity, point the
horizontal component toward the player (vx := tempo when the player is to the
left, -tempo when to the right, unchanged when level), keep vy, and write the
velocity back. -/
def gang_step (w : World) (p : Player) (eid : Nat) : World :=
  match getMob w eid with
  | none => w
  | some m =>
    let vx := if p.pos.1 < m.pos.1 then m.tempo
      else if p.pos.1 > m.pos.1 then -m.tempo
      else m.vel.1
    upd_mob w eid (fun mb => { mb with vel := (vx, mb.vel.2) })

/-- Modelled from the spec: the base Mob.on_hit used by the projectile mobs
(Fireball from game/mob.py; BulletLeft/BulletRight in src/app.py add no
override), which is outside src/.  Spec section 8: "contact with the player
deals damage and removes the projectile", via the squishable-mob-from-side
rule's fixed damage amount (section 4.3). -/
def projectile_on_hit (w : World) (p : Player) (eid : Nat) : World × Player :=
  (remove_mob w eid, change_health p (-1))

/-- Star.collect (src/app.py lines 247-251): set niubi and start
Timer(10, player.set_niubi, [False]). -/
def star_collect (w : World) (p : Player) : World × Player :=
  (add_timer w ⟨10, TimerAction.niubiOff⟩, { p with niubi := true })

/-- Flower.collect (src/app.py lines 263-265): enable shooting. -/
def flower_collect (p : Player) : Player :=
  { p with shoot := true }

/-- Modelled from the spec: Coin.collect (game/item.py, outside src/); spec
section 4.3 says the coin's collect effect is a score increment. -/
def coin_collect (p : Player) : Player :=
  { p with score := p.score + 1 }

/-- Flag.on_hit (src/app.py lines 281-284): heal the player by 1 on an "A"
contact, otherwise do nothing (the level transition is dispatched by the
player-block handler, not by on_hit). -/
def flag_on_hit (dir : Direction) (w : World) (p : Player) : World × Player :=
  if dir = Direction.A then (w, change_health p 1) else (w, p)

/-- The dynamic dispatch of block.on_hit(event, (world, player)): Switch,
Bounce and Flag override on_hit in src/app.py.  Tunnel and plain blocks
inherit the base Block.on_hit (game/block.py, outside src/), modelled from the
spec as having no contact behaviour of their own (section 4.3 gives plain
solid blocks no on-hit effect); MysteryBlock's on_hit is likewise outside src/
and outside every claim, so unmodelled kinds are no-ops here. -/
def block_on_hit (dir : Direction) (w : World) (p : Player) (eid : Nat) : World × Player :=
  match getBlock w eid with
  | none => (w, p)
  | some b =>
    if b.kind = "switches" then (switch_on_hit dir w eid, p)
    else if b.kind = "bounce" then bounce_on_hit dir w p eid
    else if b.kind = "flag" then flag_on_hit dir w p
    else (w, p)

/-- The dynamic dispatch of mob.on_hit(event, (world, player)): Mushroom and
Gang override on_hit in src/app.py; the projectile kinds use the base class
behaviour (see projectile_on_hit).  CloudMob's on_hit lives outside src/ and
outside every claim, so other kinds are no-ops here. -/
def mob_on_hit (dir : Direction) (w : World) (p : Player) (eid : Nat) : World × Player :=
  match getMob w eid with
  | none => (w, p)
  | some m =>
    if m.kind = "mushroom" then mushroom_on_hit dir w p eid
    else if m.kind = "gang" then gang_on_hit dir w p eid
    else if m.kind = "fireball" ∨ m.kind = "bullet_l" ∨ m.kind = "bullet_r" then
      projectile_on_hit w p eid
    else (w, p)

/-- MarioApp._handle_player_collide_item (src/app.py lines 1099-1127): for the
coin, star and flower kinds, invoke collect on the player and remove the item;
always return False. -/
def handle_player_collide_item (w : World) (p : Player) (eid : Nat) :
    World × Player × Bool :=
  match getItem w eid with
  | none => (w, p, false)
  | some it =>
    if it.kind = "coin" then (remove_item w eid, coin_collect p, false)
    else if it.kind = "star" then
      let wp := star_collect w p
      (remove_item wp.1 eid, wp.2, false)
    else if it.kind = "flower" then (remove_item w eid, flower_collect p, false)
    else (w, p, false)

/-- MarioApp._handle_player_collide_block (src/app.py lines 1129-1163).  An
"A" contact clears the jumping flag; the flag kind calls on_hit itself on an
"A" contact (the non-"A" flag branch and the tunnel branch signal score-entry
and level transitions to the embedder, outside this model per spec section 1);
the switches kind calls on_hit while active; and then on_hit is called once
more, unconditionally, before returning True. -/
def handle_player_collide_block (dir : Direction) (w : World) (p : Player) (eid : Nat) :
    World × Player × Bool :=
  let p1 := if dir = Direction.A then { p with jumping := false } else p
  match getBlock w eid with
  | none =>
    let wp := block_on_hit dir w p1 eid
    (wp.1, wp.2, true)
  | some b =>
    if b.kind = "flag" then
      if dir = Direction.A then
        let wp := block_on_hit dir w p1 eid
        let wp2 := block_on_hit dir wp.1 wp.2 eid
        (wp2.1, wp2.2, true)
      else
        let wp := block_on_hit dir w p1 eid
        (wp.1, wp.2, true)
    else if b.kind = "tunnel" then
      let p2 := if dir = Direction.A ∧ p1.duck = true then { p1 with duck := false } else p1
      let wp := block_on_hit dir w p2 eid
      (wp.1, wp.2, true)
    else if b.kind = "switches" then
      let w1 := if b.active then switch_on_hit dir w eid else w
      let wp := block_on_hit dir w1 p1 eid
      (wp.1, wp.2, true)
    else
      let wp := block_on_hit dir w p1 eid
      (wp.1, wp.2, true)

/-- MarioApp._handle_player_collide_mob (src/app.py lines 1165-1173): an
invincible player destroys the mob outright; otherwise a shoot-capable player
merely loses the capability; otherwise the mob's on_hit runs.  Returns True. -/
def handle_player_collide_mob (dir : Direction) (w : World) (p : Player) (eid : Nat) :
    World × Player × Bool :=
  if p.niubi then (remove_mob w eid, p, true)
  else if p.shoot then (w, { p with shoot := false }, true)
  else
    let wp := mob_on_hit dir w p eid
    (wp.1, wp.2, true)

/-- MarioApp._handle_mob_collide_block (src/app.py lines 1054-1071). -/
def handle_mob_collide_block (dir : Direction) (w : World) (mobEid blockEid : Nat) :
    World × Bool :=
  match getMob w mobEid, getBlock w blockEid with
  | some m, some b =>
    if m.kind = "fireball" ∨ m.kind = "bullet_l" ∨ m.kind = "bullet_r" then
      if b.kind = "brick" then (remove_mob (remove_block w blockEid) mobEid, true)
      else (remove_mob w mobEid, true)
    else if m.kind = "mushroom" then
      if dir = Direction.R ∨ dir = Direction.L then
        (upd_mob w mobEid (fun mb => { mb with tempo := -mb.tempo }), true)
      else (w, true)
    else if m.kind = "gang" then
      if dir = Direction.R then (upd_mob w mobEid (fun mb => { mb with vel := (50, -350) }), true)
      else if dir = Direction.L then
        (upd_mob w mobEid (fun mb => { mb with vel := (-50, -350) }), true)
      else (w, true)
    else (w, true)
  | _, _ => (w, true)

/-- MarioApp._handle_mob_collide_mob (src/app.py lines 1077-1098).  Note: the
source's second branch tests `mob1.get_id == 'bullet_r'` and
`mob2.get_id == 'bullet_r'` without calling get_id, comparing the bound method
object itself against a string; those two tests are always false at runtime,
so only the 'bullet_l' comparisons can select that branch, and bullet_r mobs
fall through to the later branches (ending in mutual destruction). -/
def handle_mob_collide_mob (w : World) (e1 e2 : Nat) : World × Bool :=
  match getMob w e1, getMob w e2 with
  | some m1, some m2 =>
    if m1.kind = "fireball" ∨ m2.kind = "fireball" then
      (remove_mob (remove_mob w e1) e2, false)
    else if m1.kind = "bullet_l" ∨ m2.kind = "bullet_l" then
      (remove_mob (remove_mob w e1) e2, false)
    else if m1.kind = "gang" ∧ m2.kind = "mushroom" then (w, false)
    else if m1.kind = "mushroom" ∧ m2.kind = "gang" then (w, false)
    else if m1.kind = "gang" ∧ m2.kind = "gang" then (w, false)
    else if m1.kind = "mushroom" ∧ m2.kind = "mushroom" then
      (upd_mob (upd_mob w e1 (fun mb => { mb with tempo := -mb.tempo })) e2
        (fun mb => { mb with tempo := -mb.tempo }), false)
    else (remove_mob (remove_mob w e1) e2, false)
  | _, _ => (w, false)

/-- MarioApp._handle_mob_collide_item (src/app.py lines 1073-1075). -/
def handle_mob_collide_item (w : World) (mobEid itemEid : Nat) : World × Bool :=
  (w, false)

/-- Firing one pending deferred action (the body each source Timer was armed
with): Switch reactivation (set_active True), Switch.blocks_recover, Bounce
revert (set_active False), world.remove_mob of a squished mob, and
player.set_niubi False for star expiry. -/
def fire_timer_action (w : World) (p : Player) (a : TimerAction) : World × Player :=
  match a with
  | TimerAction.switchReactivate eid =>
    (upd_block w eid (fun b => { b with active := true }), p)
  | TimerAction.bricksRecover bl => (blocks_recover bl w, p)
  | TimerAction.bounceRevert eid =>
    (upd_block w eid (fun b => { b with active := false }), p)
  | TimerAction.removeMobEvt eid => (remove_mob w eid, p)
  | TimerAction.niubiOff => (w, { p with niubi := false })

/-- The brick list a Ready switch collects on an Above trigger: the blocks of
kind "brick" among the radius-60 range query around the switch position (the
query runs after `self._active = False`, matching the statement order of
Switch.on_hit).  This names the subterm of switch_on_hit so that theorems can
speak about the recorded bricks. -/
def switch_bricks (w : World) (eid : Nat) (sw : BlockEnt) : List BlockEnt :=
  (get_blocks_in_range (upd_block w eid (fun b => { b with active := false }))
    sw.pos.1 sw.pos.2 60).filter (fun t => t.kind == "brick")

/-- The world once the two deferred actions scheduled by an Above trigger of a
Ready switch have fired, in their insertion order: first the reactivation
(Timer(10, self.set_active, [True])), then the brick restoration
(Timer(10, self.blocks_recover, [brick_list, world])). -/
def switch_recovered (w : World) (p : Player) (eid : Nat) (sw : BlockEnt) : World :=
  (fire_timer_action
    (fire_timer_action (switch_on_hit Direction.A w eid) p
      (TimerAction.switchReactivate eid)).1
    p
    (TimerAction.bricksRecover
      ((switch_bricks w eid sw).map (fun t => (t, t.pos.1, t.pos.2))))).1

/-- A concrete player used by witnesses. -/
def playerW : Player :=
  { health := 5, score := 0, niubi := false, duck := false, shoot := false,
    jumping := true, pos := (0, 0), vel := (0, 0) }

/-- Concrete world for the switch scenario: a Ready switch at the origin, one
brick within radius 60, one brick outside it. -/
def switchWorld : World :=
  { blocks := [⟨1, "switches", (0, 0), true⟩, ⟨2, "brick", (30, 40), false⟩,
               ⟨3, "brick", (200, 0), false⟩],
    mobs := [], items := [], timers := [] }

/-- The switch entity of switchWorld. -/
def switchEnt : BlockEnt := ⟨1, "switches", (0, 0), true⟩

/-- Concrete world with a single bounce pad that is already in the Bouncing
state (`_active = True`). -/
def bounceWorld : World :=
  { blocks := [⟨1, "bounce", (0, 0), true⟩], mobs := [], items := [], timers := [] }

/-- The bounce entity of bounceWorld. -/
def bounceEnt : BlockEnt := ⟨1, "bounce", (0, 0), true⟩

/-- A player whose velocity is not the bounce impulse, to observe the impulse
being re-applied. -/
def movingPlayer : Player :=
  { health := 5, score := 0, niubi := false, duck := false, shoot := false,
    jumping := true, pos := (0, 0), vel := (7, 3) }

/-- Concrete world with one flag block. -/
def flagWorld : World :=
  { blocks := [⟨1, "flag", (0, 0), false⟩], mobs := [], items := [], timers := [] }

/-- The flag entity of flagWorld. -/
def flagEnt : BlockEnt := ⟨1, "flag", (0, 0), false⟩

/-- Concrete world with one alive mushroom and one alive gang. -/
def mobWorld : World :=
  { blocks := [], mobs := [⟨1, "mushroom", (0, 0), (-30, 0), -30, false⟩,
                           ⟨2, "gang", (40, 0), (-80, 0), -80, false⟩],
    items := [], timers := [] }

/-- The mushroom entity of mobWorld. -/
def mushroomEnt : MobEnt := ⟨1, "mushroom", (0, 0), (-30, 0), -30, false⟩

/-- The gang entity of mobWorld. -/
def gangEnt : MobEnt := ⟨2, "gang", (40, 0), (-80, 0), -80, false⟩

/-- Concrete world with two gang mobs walking with tempo -80, for the
mob-mob collision scenario. -/
def gangPairWorld : World :=
  { blocks := [], mobs := [⟨1, "gang", (0, 0), (-80, 0), -80, false⟩,
                           ⟨2, "gang", (40, 0), (-80, 0), -80, false⟩],
    items := [], timers := [] }

/-- Concrete world with two mushrooms, for the amended mob-mob scenario. -/
def mushroomPairWorld : World :=
  { blocks := [], mobs := [⟨1, "mushroom", (0, 0), (-30, 0), -30, false⟩,
                           ⟨2, "mushroom", (20, 0), (30, 0), 30, false⟩],
    items := [], timers := [] }

/-- Concrete world with a fireball mob and a brick block, for the projectile
scenario. -/
def projectileWorld : World :=
  { blocks := [⟨1, "brick", (10, 0), false⟩, ⟨2, "cube", (40, 0), false⟩],
    mobs := [⟨3, "fireball", (0, 0), (0, 100), 0, false⟩],
    items := [], timers := [] }

/-- Concrete world with the three collectible items. -/
def itemWorld : World :=
  { blocks := [], mobs := [],
    items := [⟨1, "coin", (0, 0)⟩, ⟨2, "star", (10, 0)⟩, ⟨3, "flower", (20, 0)⟩],
    timers := [] }

/-- The fireball entity of projectileWorld. -/
def fireballEnt : MobEnt := ⟨3, "fireball", (0, 0), (0, 100), 0, false⟩

/-- The brick entity of projectileWorld. -/
def brickEnt : BlockEnt := ⟨1, "brick", (10, 0), false⟩

/-- The cube entity of projectileWorld. -/
def cubeEnt : BlockEnt := ⟨2, "cube", (40, 0), false⟩

/-- The coin entity of itemWorld. -/
def coinEnt : ItemEnt := ⟨1, "coin", (0, 0)⟩

/-- The star entity of itemWorld. -/
def starEnt : ItemEnt := ⟨2, "star", (10, 0)⟩

/-- The flower entity of itemWorld. -/
def flowerEnt : ItemEnt := ⟨3, "flower", (20, 0)⟩

/-- An invincible concrete player. -/
def niubiPlayer : Player := { playerW with niubi := true }

/-- A shoot-capable concrete player. -/
def shootPlayer : Player := { playerW with shoot := true }

/-! Registry lemmas: lookup, in-place update and removal by identity. -/

theorem findById_eq_some {α : Type} {key : α → Nat} {eid : Nat} {l : List α} {x : α}
    (h : findById key eid l = some x) : x ∈ l ∧ key x = eid := by
  refine ⟨List.mem_of_find?_eq_some h, ?_⟩
  have hp := List.find?_some h
  simpa using hp

theorem findById_of_mem {α : Type} {key : α → Nat} {eid : Nat} {x : α} {l : List α}
    (hnd : (l.map key).Nodup) (hx : x ∈ l) (hk : key x = eid) :
    findById key eid l = some x := by
  induction l with
  | nil => simp at hx
  | cons a t ih =>
    simp only [List.map_cons, List.nodup_cons] at hnd
    rcases List.mem_cons.mp hx with h | hxt
    · subst h
      unfold findById
      rw [List.find?_cons_of_pos]
      simp [hk]
    · have hmem : eid ∈ t.map key := hk ▸ List.mem_map_of_mem key hxt
      have hne : ¬ key a = eid := fun hcon => hnd.1 (hcon ▸ hmem)
      unfold findById at *
      rw [List.find?_cons_of_neg]
      · exact ih hnd.2 hxt
      · simp [hne]

theorem findById_updById_same {α : Type} (key : α → Nat) (eid : Nat) (f : α → α)
    (hf : ∀ x, key (f x) = key x) (l : List α) :
    findById key eid (updById key eid f l) = (findById key eid l).map f := by
  induction l with
  | nil => rfl
  | cons a t ih =>
    unfold updById findById at *
    simp only [List.map_cons]
    by_cases h : key a = eid
    · rw [if_pos h, List.find?_cons_of_pos, List.find?_cons_of_pos]
      · rfl
      · simp [h]
      · simp [hf, h]
    · rw [if_neg h, List.find?_cons_of_neg, List.find?_cons_of_neg]
      · exact ih
      · simp [h]
      · simp [h]

theorem findById_updById_ne {α : Type} (key : α → Nat) (e1 e2 : Nat) (f : α → α)
    (hf : ∀ x, key (f x) = key x) (hne : e1 ≠ e2) (l : List α) :
    findById key e2 (updById key e1 f l) = findById key e2 l := by
  induction l with
  | nil => rfl
  | cons a t ih =>
    unfold updById findById at *
    simp only [List.map_cons]
    by_cases h1 : key a = e1
    · rw [if_pos h1, List.find?_cons_of_neg, List.find?_cons_of_neg]
      · exact ih
      · simp [h1, hne]
      · simp [hf, h1, hne]
    · rw [if_neg h1]
      by_cases h2 : key a = e2
      · rw [List.find?_cons_of_pos, List.find?_cons_of_pos]
        · simp [h2]
        · simp [h2]
      · rw [List.find?_cons_of_neg, List.find?_cons_of_neg]
        · exact ih
        · simp [h2]
        · simp [h2]

theorem mem_updById_of_ne {α : Type} {key : α → Nat} {eid : Nat} {f : α → α} {l : List α}
    {x : α} (hx : x ∈ l) (h : ¬ key x = eid) : x ∈ updById key eid f l := by
  have hm := List.mem_map_of_mem (fun y => if key y = eid then f y else y) hx
  simpa [updById, h] using hm

theorem mem_updById_self {α : Type} {key : α → Nat} {eid : Nat} {f : α → α} {l : List α}
    {x : α} (hx : x ∈ l) (h : key x = eid) : f x ∈ updById key eid f l := by
  have hm := List.mem_map_of_mem (fun y => if key y = eid then f y else y) hx
  simpa [updById, h] using hm

theorem map_key_updById {α : Type} (key : α → Nat) (eid : Nat) (f : α → α)
    (hf : ∀ x, key (f x) = key x) (l : List α) :
    (updById key eid f l).map key = l.map key := by
  induction l with
  | nil => rfl
  | cons a t ih =>
    unfold updById at *
    simp only [List.map_cons, ih]
    by_cases h : key a = eid
    · simp [h, hf]
    · simp [h]

theorem find_append_of_some {α : Type} {p : α → Bool} {l1 l2 : List α} {x : α}
    (h : l1.find? p = some x) : (l1 ++ l2).find? p = some x := by
  induction l1 with
  | nil => simp at h
  | cons a t ih =>
    by_cases hp : p a = true
    · rw [List.find?_cons_of_pos _ hp] at h
      rw [List.cons_append, List.find?_cons_of_pos _ hp]
      exact h
    · rw [List.find?_cons_of_neg _ hp] at h
      rw [List.cons_append, List.find?_cons_of_neg _ hp]
      exact ih h

/-! Lemmas about the brick-removal loop and the restoration fold of the
Switch behaviour. -/

theorem mem_blocks_foldl_remove (L : List BlockEnt) :
    ∀ (w : World) (b : BlockEnt),
      (b ∈ (L.foldl (fun acc t => remove_block acc t.eid) w).blocks ↔
        b ∈ w.blocks ∧ ∀ t ∈ L, b.eid ≠ t.eid) := by
  induction L with
  | nil => intro w b; simp
  | cons a t ih =>
    intro w b
    simp only [List.foldl_cons]
    rw [ih]
    simp only [remove_block, removeById, List.mem_filter, List.forall_mem_cons,
      bne_iff_ne, ne_eq, and_assoc]

theorem timers_foldl_remove (L : List BlockEnt) :
    ∀ (w : World), (L.foldl (fun acc t => remove_block acc t.eid) w).timers = w.timers := by
  induction L with
  | nil => intro w; rfl
  | cons a t ih =>
    intro w
    simp only [List.foldl_cons]
    rw [ih]
    rfl

theorem blocks_foldl_remove_sublist (L : List BlockEnt) :
    ∀ (w : World),
      (L.foldl (fun acc t => remove_block acc t.eid) w).blocks.Sublist w.blocks := by
  induction L with
  | nil => intro w; exact List.Sublist.refl _
  | cons a t ih =>
    intro w
    simp only [List.foldl_cons]
    exact (ih _).trans (List.filter_sublist _)

theorem blocks_recover_blocks (L : List (BlockEnt × Int × Int)) :
    ∀ (w : World),
      (blocks_recover L w).blocks
        = w.blocks ++ L.map (fun n => { n.1 with pos := (n.2.1, n.2.2) }) := by
  induction L with
  | nil => intro w; simp [blocks_recover]
  | cons a t ih =>
    intro w
    simp only [blocks_recover, List.foldl_cons] at *
    rw [ih]
    simp [add_block]

/-! Core lemmas about the Switch behaviour. -/

theorem switch_on_hit_active_eq (w : World) (eid : Nat) (sw : BlockEnt)
    (hget : getBlock w eid = some sw) (hact : sw.active = true) :
    switch_on_hit Direction.A w eid =
      add_timer (add_timer
        ((switch_bricks w eid sw).foldl (fun acc t => remove_block acc t.eid)
          (upd_block w eid (fun b => { b with active := false })))
        ⟨10, TimerAction.switchReactivate eid⟩)
        ⟨10, TimerAction.bricksRecover
          ((switch_bricks w eid sw).map (fun t => (t, t.pos.1, t.pos.2)))⟩ := by
  unfold switch_on_hit switch_bricks
  rw [hget]
  simp [hact]

theorem switch_on_hit_inactive (d : Direction) (w : World) (eid : Nat) (sb : BlockEnt)
    (hget : getBlock w eid = some sb) (hina : sb.active = false) :
    switch_on_hit d w eid = w := by
  unfold switch_on_hit
  rw [hget]
  by_cases hd : d = Direction.A
  · subst hd
    simp [hina]
  · simp [hd]

theorem brick_ne_switch_eid {w : World} {eid : Nat} {sw b : BlockEnt}
    (hget : getBlock w eid = some sw) (hkind : sw.kind = "switches")
    (hnd : (w.blocks.map BlockEnt.eid).Nodup)
    (hb : b ∈ w.blocks) (hk : b.kind = "brick") : ¬ b.eid = eid := by
  obtain ⟨hmem, heid⟩ := findById_eq_some hget
  intro hcon
  have hbsw : b = sw := List.inj_on_of_nodup_map hnd hb hmem (hcon.trans heid.symm)
  rw [hbsw, hkind] at hk
  exact absurd hk (by decide)

theorem mem_switch_bricks {w : World} {eid : Nat} {sw b : BlockEnt}
    (hb : b ∈ w.blocks) (hne : ¬ b.eid = eid) (hk : b.kind = "brick")
    (hd : dist2 b.pos sw.pos ≤ 60 * 60) : b ∈ switch_bricks w eid sw := by
  unfold switch_bricks get_blocks_in_range
  refine List.mem_filter.mpr ⟨List.mem_filter.mpr ⟨?_, ?_⟩, ?_⟩
  · exact mem_updById_of_ne hb hne
  · simpa using hd
  · simp [hk]

theorem switch_bricks_sub {w : World} {eid : Nat} {sw t : BlockEnt}
    (ht : t ∈ switch_bricks w eid sw) :
    t ∈ (upd_block w eid (fun b => { b with active := false })).blocks ∧
      t.kind = "brick" := by
  unfold switch_bricks get_blocks_in_range at ht
  have h1 := List.mem_filter.mp ht
  have h2 := List.mem_filter.mp h1.1
  refine ⟨h2.1, ?_⟩
  simpa using h1.2

theorem nodup_upd_blocks (w : World) (eid : Nat) :
    (w.blocks.map BlockEnt.eid).Nodup →
      (((upd_block w eid (fun b => { b with active := false })).blocks.map
        BlockEnt.eid).Nodup) := by
  intro hnd
  have heq := map_key_updById BlockEnt.eid eid (fun b => { b with active := false })
    (fun x => rfl) w.blocks
  show ((updById BlockEnt.eid eid (fun b => { b with active := false })
    w.blocks).map BlockEnt.eid).Nodup
  rw [heq]
  exact hnd

theorem getBlock_switch_trigger (w : World) (eid : Nat) (sw : BlockEnt)
    (hget : getBlock w eid = some sw) (hkind : sw.kind = "switches")
    (hact : sw.active = true) (hnd : (w.blocks.map BlockEnt.eid).Nodup) :
    getBlock (switch_on_hit Direction.A w eid) eid =
      some { sw with active := false } := by
  obtain ⟨hmem, heid⟩ := findById_eq_some hget
  rw [switch_on_hit_active_eq w eid sw hget hact]
  have hndu := nodup_upd_blocks w eid hnd
  show findById BlockEnt.eid eid
    (((switch_bricks w eid sw).foldl (fun acc t => remove_block acc t.eid)
      (upd_block w eid (fun b => { b with active := false }))).blocks) = _
  apply findById_of_mem
  · exact List.Nodup.sublist
      (List.Sublist.map BlockEnt.eid (blocks_foldl_remove_sublist _ _)) hndu
  · rw [mem_blocks_foldl_remove]
    constructor
    · exact mem_updById_self hmem heid
    · intro t ht hcon
      obtain ⟨htu, htk⟩ := switch_bricks_sub ht
      have hswu : ({ sw with active := false } : BlockEnt) ∈
          (upd_block w eid (fun b => { b with active := false })).blocks :=
        mem_updById_self hmem heid
      have : t = { sw with active := false } :=
        List.inj_on_of_nodup_map hndu htu hswu hcon.symm
      rw [this] at htk
      simp only at htk
      rw [hkind] at htk
      exact absurd htk (by decide)
  · exact heid

theorem switch_trigger_timers (w : World) (eid : Nat) (sw : BlockEnt)
    (hget : getBlock w eid = some sw) (hact : sw.active = true) :
    (switch_on_hit Direction.A w eid).timers =
      w.timers ++
        [⟨10, TimerAction.switchReactivate eid⟩,
         ⟨10, TimerAction.bricksRecover
           ((switch_bricks w eid sw).map (fun t => (t, t.pos.1, t.pos.2)))⟩] := by
  rw [switch_on_hit_active_eq w eid sw hget hact]
  show ((((switch_bricks w eid sw).foldl (fun acc t => remove_block acc t.eid)
      (upd_block w eid (fun b => { b with active := false }))).timers ++ _) ++ _) = _
  rw [timers_foldl_remove]
  show (w.timers ++ _) ++ _ = _
  rw [List.append_assoc]
  rfl

theorem switch_trigger_removes (w : World) (eid : Nat) (sw : BlockEnt)
    (hget : getBlock w eid = some sw) (hkind : sw.kind = "switches")
    (hact : sw.active = true) (hnd : (w.blocks.map BlockEnt.eid).Nodup)
    (b : BlockEnt) (hb : b ∈ w.blocks) (hk : b.kind = "brick")
    (hd : dist2 b.pos sw.pos ≤ 60 * 60) :
    b ∉ (switch_on_hit Direction.A w eid).blocks := by
  intro hmem2
  rw [switch_on_hit_active_eq w eid sw hget hact] at hmem2
  have hall := (mem_blocks_foldl_remove _ _ _).mp hmem2
  have hne := brick_ne_switch_eid hget hkind hnd hb hk
  exact hall.2 b (mem_switch_bricks hb hne hk hd) rfl

theorem switch_recovered_restores (w : World) (p : Player) (eid : Nat) (sw : BlockEnt)
    (hget : getBlock w eid = some sw) (hkind : sw.kind = "switches")
    (hact : sw.active = true) (hnd : (w.blocks.map BlockEnt.eid).Nodup)
    (b : BlockEnt) (hb : b ∈ w.blocks) (hk : b.kind = "brick")
    (hd : dist2 b.pos sw.pos ≤ 60 * 60) :
    b ∈ (switch_recovered w p eid sw).blocks := by
  have hne := brick_ne_switch_eid hget hkind hnd hb hk
  have hbr := mem_switch_bricks hb hne hk hd
  show b ∈ (blocks_recover _ _).blocks
  rw [blocks_recover_blocks]
  apply List.mem_append.mpr
  right
  have h1 := List.mem_map_of_mem (fun t => (t, t.pos.1, t.pos.2)) hbr
  have h2 := List.mem_map_of_mem
    (fun n => ({ n.1 with pos := (n.2.1, n.2.2) } : BlockEnt)) h1
  exact h2

theorem switch_recovered_ready (w : World) (p : Player) (eid : Nat) (sw : BlockEnt)
    (hget : getBlock w eid = some sw) (hkind : sw.kind = "switches")
    (hact : sw.active = true) (hnd : (w.blocks.map BlockEnt.eid).Nodup) :
    getBlock (switch_recovered w p eid sw) eid = some sw := by
  have hW1 := getBlock_switch_trigger w eid sw hget hkind hact hnd
  have hsw : ({ sw with active := true } : BlockEnt) = sw := by
    cases sw
    simp only at hact
    rw [hact]
  have hupd : findById BlockEnt.eid eid
      ((upd_block (switch_on_hit Direction.A w eid) eid
        (fun b => { b with active := true })).blocks)
      = some { sw with active := true } := by
    show findById BlockEnt.eid eid (updById BlockEnt.eid eid _ _) = _
    rw [findById_updById_same BlockEnt.eid eid
      (fun b => { b with active := true }) (fun x => rfl)]
    show (getBlock (switch_on_hit Direction.A w eid) eid).map _ = _
    rw [hW1]
    rfl
  rw [hsw] at hupd
  show findById BlockEnt.eid eid ((blocks_recover _ _).blocks) = some sw
  rw [blocks_recover_blocks]
  exact find_append_of_some hupd

theorem handle_block_switch_inactive (d : Direction) (w : World) (p : Player) (eid : Nat)
    (sb : BlockEnt) (hget : getBlock w eid = some sb) (hkind : sb.kind = "switches")
    (hina : sb.active = false) :
    (handle_player_collide_block d w p eid).1 = w := by
  have hno := switch_on_hit_inactive d w eid sb hget hina
  simp [handle_player_collide_block, block_on_hit, hget, hkind, hina, hno]

theorem handle_block_switch_active (w : World) (p : Player) (eid : Nat) (sw : BlockEnt)
    (hget : getBlock w eid = some sw) (hkind : sw.kind = "switches")
    (hact : sw.active = true) (hnd : (w.blocks.map BlockEnt.eid).Nodup) :
    (handle_player_collide_block Direction.A w p eid).1 =
      switch_on_hit Direction.A w eid := by
  have hW1 := getBlock_switch_trigger w eid sw hget hkind hact hnd
  have hno := switch_on_hit_inactive Direction.A (switch_on_hit Direction.A w eid) eid
    { sw with active := false } hW1 rfl
  simp [handle_player_collide_block, block_on_hit, hget, hkind, hact, hW1, hno]

/-- C1: on a player contact resolved as Above while the switch is active
(Ready), the player-block handler removes every block of kind "brick" within
radius 60 of the switch's position and sets the switch inactive (Cooling),
scheduling the two 10 time-unit deferred actions; any trigger attempt while
the switch is inactive leaves the world unchanged (no blocks removed, no
timers scheduled); and firing the two scheduled actions re-adds every removed
brick at its original coordinates and makes the switch active (Ready) again. -/
theorem claim_C1_switch (w : World) (p : Player) (eid : Nat) (sw : BlockEnt)
    (hget : getBlock w eid = some sw) (hkind : sw.kind = "switches")
    (hact : sw.active = true) (hnd : (w.blocks.map BlockEnt.eid).Nodup) :
    (handle_player_collide_block Direction.A w p eid).1 =
        switch_on_hit Direction.A w eid ∧
    (∀ b ∈ w.blocks, b.kind = "brick" → dist2 b.pos sw.pos ≤ 60 * 60 →
        b ∉ (switch_on_hit Direction.A w eid).blocks) ∧
    getBlock (switch_on_hit Direction.A w eid) eid =
      some { sw with active := false } ∧
    (switch_on_hit Direction.A w eid).timers =
      w.timers ++
        [⟨10, TimerAction.switchReactivate eid⟩,
         ⟨10, TimerAction.bricksRecover
           ((switch_bricks w eid sw).map (fun t => (t, t.pos.1, t.pos.2)))⟩] ∧
    (∀ (d : Direction) (w2 : World) (p2 : Player) (e2 : Nat) (sb : BlockEnt),
        getBlock w2 e2 = some sb → sb.kind = "switches" → sb.active = false →
        (handle_player_collide_block d w2 p2 e2).1 = w2) ∧
    (∀ b ∈ w.blocks, b.kind = "brick" → dist2 b.pos sw.pos ≤ 60 * 60 →
        b ∈ (switch_recovered w p eid sw).blocks) ∧
    getBlock (switch_recovered w p eid sw) eid = some sw := by
  refine ⟨handle_block_switch_active w p eid sw hget hkind hact hnd,
    fun b hb hk hd => switch_trigger_removes w eid sw hget hkind hact hnd b hb hk hd,
    getBlock_switch_trigger w eid sw hget hkind hact hnd,
    switch_trigger_timers w eid sw hget hact,
    fun d w2 p2 e2 sb h1 h2 h3 => handle_block_switch_inactive d w2 p2 e2 sb h1 h2 h3,
    fun b hb hk hd => switch_recovered_restores w p eid sw hget hkind hact hnd b hb hk hd,
    switch_recovered_ready w p eid sw hget hkind hact hnd⟩

/-- Witness for C1 on the concrete switch world: the in-range brick is removed
by the trigger, the switch is left inactive, and after the two deferred
actions fire the brick is back at (30, 40) and the switch is Ready again. -/
theorem claim_C1_switch_witness :
    (⟨2, "brick", (30, 40), false⟩ : BlockEnt) ∉
        (switch_on_hit Direction.A switchWorld 1).blocks ∧
    getBlock (switch_on_hit Direction.A switchWorld 1) 1 =
      some { switchEnt with active := false } ∧
    (⟨2, "brick", (30, 40), false⟩ : BlockEnt) ∈
        (switch_recovered switchWorld playerW 1 switchEnt).blocks ∧
    getBlock (switch_recovered switchWorld playerW 1 switchEnt) 1 = some switchEnt := by
  have h := claim_C1_switch switchWorld playerW 1 switchEnt (by decide) (by decide)
    (by decide) (by decide)
  exact ⟨h.2.1 _ (by decide) (by decide) (by decide),
    h.2.2.1,
    h.2.2.2.2.2.1 _ (by decide) (by decide) (by decide),
    h.2.2.2.2.2.2⟩

/-- C10: the player-block handler invokes block.on_hit unconditionally after
its kind-specific branch; for a flag contacted from Above, Flag.on_hit runs
twice in the same dispatch and the player's health increases by 2; for an
active switch, Switch.on_hit is invoked twice and the second invocation is a
no-op because the first cleared the active flag. -/
theorem claim_C10_unconditional_on_hit (w : World) (p : Player) (eid : Nat)
    (b : BlockEnt) (hget : getBlock w eid = some b) :
    (b.kind = "flag" →
      (handle_player_collide_block Direction.A w p eid).2.1.health = p.health + 2) ∧
    (b.kind = "switches" → b.active = true → (w.blocks.map BlockEnt.eid).Nodup →
      (handle_player_collide_block Direction.A w p eid).1 =
          switch_on_hit Direction.A w eid ∧
      switch_on_hit Direction.A (switch_on_hit Direction.A w eid) eid =
        switch_on_hit Direction.A w eid) := by
  constructor
  · intro hk
    simp [handle_player_collide_block, block_on_hit, flag_on_hit, change_health,
      hget, hk]
    omega
  · intro hk hact hnd
    exact ⟨handle_block_switch_active w p eid b hget hk hact hnd,
      switch_on_hit_inactive Direction.A (switch_on_hit Direction.A w eid) eid
        { b with active := false }
        (getBlock_switch_trigger w eid b hget hk hact hnd) rfl⟩

/-- Witness for C10 on the concrete flag world: an Above contact with the flag
raises the player's health from 5 to 7. -/
theorem claim_C10_witness :
    (handle_player_collide_block Direction.A flagWorld playerW 1).2.1.health =
      playerW.health + 2 :=
  (claim_C10_unconditional_on_hit flagWorld playerW 1 flagEnt (by decide)).1 (by decide)

/-! Lemmas about the mob registry and the mob behaviours. -/

theorem getMob_upd_mob_same (w : World) (eid : Nat) (f : MobEnt → MobEnt)
    (hf : ∀ x, (f x).eid = x.eid) :
    getMob (upd_mob w eid f) eid = (getMob w eid).map f := by
  show findById MobEnt.eid eid (updById MobEnt.eid eid f w.mobs) = _
  exact findById_updById_same MobEnt.eid eid f hf w.mobs

theorem getMob_upd_mob_ne (w : World) (e1 e2 : Nat) (f : MobEnt → MobEnt)
    (hf : ∀ x, (f x).eid = x.eid) (h : e1 ≠ e2) :
    getMob (upd_mob w e1 f) e2 = getMob w e2 := by
  show findById MobEnt.eid e2 (updById MobEnt.eid e1 f w.mobs) = _
  exact findById_updById_ne MobEnt.eid e1 e2 f hf h w.mobs

theorem mushroom_on_hit_above (w : World) (p : Player) (eid : Nat) (m : MobEnt)
    (hget : getMob w eid = some m) (hkind : m.kind = "mushroom") :
    mob_on_hit Direction.A w p eid =
      (add_timer (upd_mob w eid (fun x => { x with squished := true, tempo := 0 }))
        ⟨2 / 5, TimerAction.removeMobEvt eid⟩,
       { p with vel := (0, -100) }) := by
  simp [mob_on_hit, mushroom_on_hit, hget, hkind]

theorem gang_on_hit_above (w : World) (p : Player) (eid : Nat) (m : MobEnt)
    (hget : getMob w eid = some m) (hkind : m.kind = "gang") :
    mob_on_hit Direction.A w p eid =
      (add_timer (upd_mob w eid (fun x => { x with squished := true, tempo := 0 }))
        ⟨2 / 5, TimerAction.removeMobEvt eid⟩,
       { p with vel := (0, -100) }) := by
  simp [mob_on_hit, gang_on_hit, hget, hkind]

theorem mushroom_on_hit_side (d : Direction) (hd : d = Direction.L ∨ d = Direction.R)
    (w : World) (p : Player) (eid : Nat) (m : MobEnt)
    (hget : getMob w eid = some m) (hkind : m.kind = "mushroom") :
    mob_on_hit d w p eid =
      (upd_mob w eid (fun x => { x with tempo := -x.tempo }),
       { change_health p (-1) with
          vel := if d = Direction.R then (50, 0) else (-50, 0) }) := by
  rcases hd with h | h <;> subst h <;>
    simp [mob_on_hit, mushroom_on_hit, hget, hkind]

theorem gang_on_hit_side (d : Direction) (hd : d = Direction.L ∨ d = Direction.R)
    (w : World) (p : Player) (eid : Nat) (m : MobEnt)
    (hget : getMob w eid = some m) (hkind : m.kind = "gang") :
    mob_on_hit d w p eid =
      (w, { change_health p (-1) with
        vel := if d = Direction.R then (50, 0) else (-50, 0) }) := by
  rcases hd with h | h <;> subst h <;>
    simp [mob_on_hit, gang_on_hit, hget, hkind]

/-- C3: for every squishable mob (mushroom, gang), a player contact resolved
as Above while the mob is Alive squishes the mob, gives the player the small
upward rebound (0, -100) without changing its health, halts the mob's
horizontal movement (tempo 0), and schedules exactly one removal of the mob;
a contact resolved as Left or Right reduces the player's health by exactly 1
and never squishes the mob. -/
theorem claim_C3_squishable (w : World) (p : Player) (eid : Nat) (m : MobEnt)
    (hget : getMob w eid = some m)
    (hk : m.kind = "mushroom" ∨ m.kind = "gang")
    (halive : m.squished = false) :
    ((getMob (mob_on_hit Direction.A w p eid).1 eid).map MobEnt.squished =
        some true ∧
     (getMob (mob_on_hit Direction.A w p eid).1 eid).map MobEnt.tempo = some 0 ∧
     (mob_on_hit Direction.A w p eid).2.vel = (0, -100) ∧
     (mob_on_hit Direction.A w p eid).2.health = p.health ∧
     (mob_on_hit Direction.A w p eid).1.timers =
       w.timers ++ [⟨2 / 5, TimerAction.removeMobEvt eid⟩]) ∧
    (∀ d, d = Direction.L ∨ d = Direction.R →
      (mob_on_hit d w p eid).2.health = p.health - 1 ∧
      (getMob (mob_on_hit d w p eid).1 eid).map MobEnt.squished = some false) := by
  have habove : mob_on_hit Direction.A w p eid =
      (add_timer (upd_mob w eid (fun x => { x with squished := true, tempo := 0 }))
        ⟨2 / 5, TimerAction.removeMobEvt eid⟩,
       { p with vel := (0, -100) }) := by
    rcases hk with h | h
    · exact mushroom_on_hit_above w p eid m hget h
    · exact gang_on_hit_above w p eid m hget h
  have hgA : getMob (upd_mob w eid
      (fun x => { x with squished := true, tempo := 0 })) eid =
      some { m with squished := true, tempo := 0 } := by
    rw [getMob_upd_mob_same w eid
      (fun x => { x with squished := true, tempo := 0 }) (fun x => rfl), hget]
    rfl
  constructor
  · rw [habove]
    refine ⟨?_, ?_, rfl, rfl, rfl⟩
    · show (getMob (upd_mob w eid _) eid).map MobEnt.squished = some true
      rw [hgA]
      rfl
    · show (getMob (upd_mob w eid _) eid).map MobEnt.tempo = some 0
      rw [hgA]
      rfl
  · intro d hd
    rcases hk with h | h
    · rw [mushroom_on_hit_side d hd w p eid m hget h]
      constructor
      · show p.health + (-1) = p.health - 1
        omega
      · show (getMob (upd_mob w eid _) eid).map MobEnt.squished = some false
        rw [getMob_upd_mob_same w eid
          (fun x => { x with tempo := -x.tempo }) (fun x => rfl), hget]
        show some m.squished = some false
        rw [halive]
    · rw [gang_on_hit_side d hd w p eid m hget h]
      constructor
      · show p.health + (-1) = p.health - 1
        omega
      · show (getMob w eid).map MobEnt.squished = some false
        rw [hget]
        show some m.squished = some false
        rw [halive]

/-- Witness for C3 on the concrete mob world: squishing the mushroom from
Above marks it squished, and a Left contact costs the player one health. -/
theorem claim_C3_witness :
    (getMob (mob_on_hit Direction.A mobWorld playerW 1).1 1).map MobEnt.squished =
      some true ∧
    (mob_on_hit Direction.L mobWorld playerW 1).2.health = playerW.health - 1 := by
  have h := claim_C3_squishable mobWorld playerW 1 mushroomEnt (by decide) (by decide)
    (by decide)
  exact ⟨h.1.1, (h.2 Direction.L (Or.inl rfl)).1⟩

theorem handle_block_bounce (w : World) (p : Player) (eid : Nat) (b : BlockEnt)
    (hget : getBlock w eid = some b) (hkind : b.kind = "bounce") :
    handle_player_collide_block Direction.A w p eid =
      (add_timer (upd_block w eid (fun x => { x with active := true }))
        ⟨1 / 2, TimerAction.bounceRevert eid⟩,
       { p with jumping := false, vel := (0, -400) }, true) := by
  simp [handle_player_collide_block, block_on_hit, bounce_on_hit, hget, hkind]

/-- C2 counterexample: with the bounce pad already in the Bouncing state
(active = true), a further Above contact does apply another impulse: the
player's velocity (7, 3) is overwritten with (0, -400) and one more deferred
revert is scheduled, refuting "a repeated Above contact while the block is
already in the Bouncing state applies no additional impulse". -/
theorem claim_C2_counterexample :
    bounceEnt.active = true ∧
    getBlock bounceWorld 1 = some bounceEnt ∧
    (handle_player_collide_block Direction.A bounceWorld movingPlayer 1).2.1.vel ≠
      movingPlayer.vel ∧
    (handle_player_collide_block Direction.A bounceWorld movingPlayer 1).2.1.vel =
      (0, -400) ∧
    (handle_player_collide_block Direction.A bounceWorld movingPlayer 1).1.timers.length
      = bounceWorld.timers.length + 1 := by
  refine ⟨rfl, by decide, by decide, by decide, rfl⟩

/-- C2 amended: an Above contact on the bounce pad applies the impulse
unconditionally: whatever the pad's state, it becomes Bouncing, the player's
velocity is assigned (0, -400), and one deferred revert is scheduled.  Because
the impulse is an absolute velocity assignment it is idempotent — a repeated
Above contact while already Bouncing re-applies the same assignment, so the
velocity never accumulates beyond (0, -400) — but such a contact is not a
no-op: it schedules a further revert timer. -/
theorem claim_C2_bounce (w : World) (p : Player) (eid : Nat) (b : BlockEnt)
    (hget : getBlock w eid = some b) (hkind : b.kind = "bounce") :
    (handle_player_collide_block Direction.A w p eid).2.1.vel = (0, -400) ∧
    getBlock (handle_player_collide_block Direction.A w p eid).1 eid =
      some { b with active := true } ∧
    (handle_player_collide_block Direction.A w p eid).1.timers =
      w.timers ++ [⟨1 / 2, TimerAction.bounceRevert eid⟩] ∧
    (handle_player_collide_block Direction.A
        (handle_player_collide_block Direction.A w p eid).1
        (handle_player_collide_block Direction.A w p eid).2.1 eid).2.1.vel =
      (0, -400) := by
  have h1 := handle_block_bounce w p eid b hget hkind
  have hg2 : getBlock (handle_player_collide_block Direction.A w p eid).1 eid =
      some { b with active := true } := by
    rw [h1]
    show findById BlockEnt.eid eid (updById BlockEnt.eid eid _ _) = _
    rw [findById_updById_same BlockEnt.eid eid
      (fun x => { x with active := true }) (fun x => rfl)]
    show (getBlock w eid).map _ = _
    rw [hget]
    rfl
  refine ⟨by rw [h1], hg2, by rw [h1]; rfl, ?_⟩
  have h2 := handle_block_bounce (handle_player_collide_block Direction.A w p eid).1
    (handle_player_collide_block Direction.A w p eid).2.1 eid
    { b with active := true } hg2 hkind
  rw [h2]

/-- Witness for the amended C2 on the concrete world: the Above contact on the
already-Bouncing pad leaves the player's velocity at exactly (0, -400). -/
theorem claim_C2_witness :
    (handle_player_collide_block Direction.A bounceWorld playerW 1).2.1.vel =
      (0, -400) ∧
    (handle_player_collide_block Direction.A bounceWorld playerW 1).1.timers =
      bounceWorld.timers ++ [⟨1 / 2, TimerAction.bounceRevert 1⟩] := by
  have h := claim_C2_bounce bounceWorld playerW 1 bounceEnt (by decide) (by decide)
  exact ⟨h.1, h.2.2.1⟩

/-- C4 counterexample: two gang mobs (identical squishable kind, tempo -80
each) collide; the claim says both reverse their horizontal velocity sign, but
the handler leaves the world entirely unchanged — the first gang's tempo stays
-80 rather than becoming 80. -/
theorem claim_C4_counterexample :
    (getMob (handle_mob_collide_mob gangPairWorld 1 2).1 1).map MobEnt.tempo =
      some (-80) ∧
    (getMob (handle_mob_collide_mob gangPairWorld 1 2).1 1).map MobEnt.tempo ≠
      some 80 ∧
    (handle_mob_collide_mob gangPairWorld 1 2).1 = gangPairWorld := by
  refine ⟨by decide, by decide, by decide⟩

/-- C4 amended: in a mob-mob contact between squishable mobs, only the
mushroom-mushroom pairing reverses both mobs' horizontal tempo (with no entity
removed and contact validity false); a gang-gang pairing, like the mixed
mushroom/gang pairings, leaves the world entirely unchanged and returns
false. -/
theorem claim_C4_mob_mob (w : World) (e1 e2 : Nat) (m1 m2 : MobEnt)
    (h1 : getMob w e1 = some m1) (h2 : getMob w e2 = some m2) (hne : e1 ≠ e2) :
    (m1.kind = "mushroom" → m2.kind = "mushroom" →
      (getMob (handle_mob_collide_mob w e1 e2).1 e1).map MobEnt.tempo =
        some (-m1.tempo) ∧
      (getMob (handle_mob_collide_mob w e1 e2).1 e2).map MobEnt.tempo =
        some (-m2.tempo) ∧
      (handle_mob_collide_mob w e1 e2).1.mobs.length = w.mobs.length ∧
      (handle_mob_collide_mob w e1 e2).2 = false) ∧
    (m1.kind = "gang" → m2.kind = "gang" →
      handle_mob_collide_mob w e1 e2 = (w, false)) ∧
    (m1.kind = "gang" → m2.kind = "mushroom" →
      handle_mob_collide_mob w e1 e2 = (w, false)) ∧
    (m1.kind = "mushroom" → m2.kind = "gang" →
      handle_mob_collide_mob w e1 e2 = (w, false)) := by
  refine ⟨?_, ?_, ?_, ?_⟩
  · intro hk1 hk2
    have heq : handle_mob_collide_mob w e1 e2 =
        (upd_mob (upd_mob w e1 (fun mb => { mb with tempo := -mb.tempo })) e2
          (fun mb => { mb with tempo := -mb.tempo }), false) := by
      simp [handle_mob_collide_mob, h1, h2, hk1, hk2]
    rw [heq]
    refine ⟨?_, ?_, ?_, rfl⟩
    · show (getMob (upd_mob (upd_mob w e1 _) e2 _) e1).map MobEnt.tempo = _
      rw [getMob_upd_mob_ne _ e2 e1
        (fun mb => { mb with tempo := -mb.tempo }) (fun x => rfl) (Ne.symm hne)]
      rw [getMob_upd_mob_same w e1
        (fun mb => { mb with tempo := -mb.tempo }) (fun x => rfl), h1]
      rfl
    · show (getMob (upd_mob (upd_mob w e1 _) e2 _) e2).map MobEnt.tempo = _
      rw [getMob_upd_mob_same _ e2
        (fun mb => { mb with tempo := -mb.tempo }) (fun x => rfl)]
      rw [getMob_upd_mob_ne _ e1 e2
        (fun mb => { mb with tempo := -mb.tempo }) (fun x => rfl) hne, h2]
      rfl
    · show ((updById MobEnt.eid e2 _ (updById MobEnt.eid e1 _ w.mobs)).length) = _
      simp [updById]
  · intro hk1 hk2
    simp [handle_mob_collide_mob, h1, h2, hk1, hk2]
  · intro hk1 hk2
    simp [handle_mob_collide_mob, h1, h2, hk1, hk2]
  · intro hk1 hk2
    simp [handle_mob_collide_mob, h1, h2, hk1, hk2]

/-- Witness for the amended C4 on the concrete mushroom pair: both tempos are
negated (-30 becomes 30 and 30 becomes -30), nothing is removed, and the
contact validity is false. -/
theorem claim_C4_witness :
    (getMob (handle_mob_collide_mob mushroomPairWorld 1 2).1 1).map MobEnt.tempo =
      some 30 ∧
    (getMob (handle_mob_collide_mob mushroomPairWorld 1 2).1 2).map MobEnt.tempo =
      some (-30) ∧
    (handle_mob_collide_mob mushroomPairWorld 1 2).1.mobs.length =
      mushroomPairWorld.mobs.length ∧
    (handle_mob_collide_mob mushroomPairWorld 1 2).2 = false := by
  have h := (claim_C4_mob_mob mushroomPairWorld 1 2
    ⟨1, "mushroom", (0, 0), (-30, 0), -30, false⟩
    ⟨2, "mushroom", (20, 0), (30, 0), 30, false⟩
    (by decide) (by decide) (by decide)).1 rfl rfl
  refine ⟨?_, ?_, h.2.2.1, h.2.2.2⟩
  · have := h.1
    simpa using this
  · have := h.2.1
    simpa using this

/-- C5: for every projectile mob (fireball, bullet_l, bullet_r): contact with
a block of kind "brick" removes both the block and the projectile; contact
with any non-brick block removes only the projectile; and contact with the
player (reaching the projectile's on_hit, i.e. with the player neither
invincible nor shoot-capable) damages the player and removes the projectile. -/
theorem claim_C5_projectile (d : Direction) (w : World) (p : Player)
    (mobEid blockEid : Nat) (m : MobEnt) (b : BlockEnt)
    (hm : getMob w mobEid = some m) (hb : getBlock w blockEid = some b)
    (hk : m.kind = "fireball" ∨ m.kind = "bullet_l" ∨ m.kind = "bullet_r") :
    (b.kind = "brick" →
      handle_mob_collide_block d w mobEid blockEid =
        (remove_mob (remove_block w blockEid) mobEid, true)) ∧
    (b.kind ≠ "brick" →
      handle_mob_collide_block d w mobEid blockEid = (remove_mob w mobEid, true)) ∧
    (p.niubi = false → p.shoot = false →
      handle_player_collide_mob d w p mobEid =
        (remove_mob w mobEid, change_health p (-1), true)) := by
  refine ⟨?_, ?_, ?_⟩
  · intro hbk
    rcases hk with h | h | h <;>
      simp [handle_mob_collide_block, hm, hb, h, hbk]
  · intro hbk
    rcases hk with h | h | h <;>
      simp [handle_mob_collide_block, hm, hb, h, hbk]
  · intro hn hs
    rcases hk with h | h | h <;>
      simp [handle_player_collide_mob, mob_on_hit, projectile_on_hit, hm, h, hn, hs]

/-- Witness for C5 on the concrete projectile world: the fireball destroys the
brick together with itself, survives only as a removal against the cube, and
damages the player while removing itself on player contact. -/
theorem claim_C5_witness :
    handle_mob_collide_block Direction.L projectileWorld 3 1 =
      (remove_mob (remove_block projectileWorld 1) 3, true) ∧
    handle_mob_collide_block Direction.L projectileWorld 3 2 =
      (remove_mob projectileWorld 3, true) ∧
    handle_player_collide_mob Direction.L projectileWorld playerW 3 =
      (remove_mob projectileWorld 3, change_health playerW (-1), true) := by
  have ha := claim_C5_projectile Direction.L projectileWorld playerW 3 1
    fireballEnt brickEnt (by decide) (by decide) (by decide)
  have hc := claim_C5_projectile Direction.L projectileWorld playerW 3 2
    fireballEnt cubeEnt (by decide) (by decide) (by decide)
  exact ⟨ha.1 rfl, hc.2.1 (by decide), ha.2.2 rfl rfl⟩

/-- C6: a player-item contact with a collectible invokes the item's collect
effect on the player (score increment for coin, invincibility with a scheduled
10 time-unit expiry for star, the shoot capability for flower), removes the
item from the world, and the handler always returns false. -/
theorem claim_C6_items (w : World) (p : Player) (eid : Nat) (it : ItemEnt)
    (hget : getItem w eid = some it) :
    (it.kind = "coin" →
      handle_player_collide_item w p eid =
        (remove_item w eid, { p with score := p.score + 1 }, false)) ∧
    (it.kind = "star" →
      handle_player_collide_item w p eid =
        (remove_item (add_timer w ⟨10, TimerAction.niubiOff⟩) eid,
         { p with niubi := true }, false) ∧
      (∀ (w2 : World) (p2 : Player),
        (fire_timer_action w2 p2 TimerAction.niubiOff).2.niubi = false)) ∧
    (it.kind = "flower" →
      handle_player_collide_item w p eid =
        (remove_item w eid, { p with shoot := true }, false)) ∧
    (handle_player_collide_item w p eid).2.2 = false := by
  refine ⟨?_, ?_, ?_, ?_⟩
  · intro hk
    simp [handle_player_collide_item, coin_collect, hget, hk]
  · intro hk
    refine ⟨?_, fun w2 p2 => rfl⟩
    simp [handle_player_collide_item, star_collect, hget, hk]
  · intro hk
    simp [handle_player_collide_item, flower_collect, hget, hk]
  · unfold handle_player_collide_item
    rw [hget]
    simp only []
    split_ifs <;> rfl

/-- Witness for C6 on the concrete item world: the coin adds one to the score,
the star makes the player invincible and schedules the 10 time-unit expiry,
and the flower grants the shoot capability; all three contacts report false. -/
theorem claim_C6_witness :
    handle_player_collide_item itemWorld playerW 1 =
      (remove_item itemWorld 1, { playerW with score := playerW.score + 1 }, false) ∧
    handle_player_collide_item itemWorld playerW 2 =
      (remove_item (add_timer itemWorld ⟨10, TimerAction.niubiOff⟩) 2,
       { playerW with niubi := true }, false) ∧
    handle_player_collide_item itemWorld playerW 3 =
      (remove_item itemWorld 3, { playerW with shoot := true }, false) := by
  have h1 := claim_C6_items itemWorld playerW 1 coinEnt (by decide)
  have h2 := claim_C6_items itemWorld playerW 2 starEnt (by decide)
  have h3 := claim_C6_items itemWorld playerW 3 flowerEnt (by decide)
  exact ⟨h1.1 rfl, (h2.2.1 rfl).1, h3.2.2.1 rfl⟩

/-- C8: each per-tick Gang AI update points the sign of the gang's horizontal
velocity toward the player's current horizontal position — negative (the
constructor tempo) when the player is to its left, positive (its negation)
when to its right, unchanged when the horizontal positions are equal — while
the vertical velocity is never changed; and its side-contact behaviour matches
the squishable pattern (health -1) except that it never reverses its own
movement direction (tempo and squished state unchanged). -/
theorem claim_C8_gang (w : World) (p : Player) (eid : Nat) (m : MobEnt)
    (hget : getMob w eid = some m) (hkind : m.kind = "gang")
    (htempo : m.tempo < 0) :
    (p.pos.1 < m.pos.1 →
      (getMob (gang_step w p eid) eid).map MobEnt.vel = some (m.tempo, m.vel.2) ∧
      m.tempo < 0) ∧
    (m.pos.1 < p.pos.1 →
      (getMob (gang_step w p eid) eid).map MobEnt.vel = some (-m.tempo, m.vel.2) ∧
      0 < -m.tempo) ∧
    (p.pos.1 = m.pos.1 →
      (getMob (gang_step w p eid) eid).map MobEnt.vel = some m.vel) ∧
    (∀ d, d = Direction.L ∨ d = Direction.R →
      (mob_on_hit d w p eid).2.health = p.health - 1 ∧
      (getMob (mob_on_hit d w p eid).1 eid).map MobEnt.tempo = some m.tempo ∧
      (getMob (mob_on_hit d w p eid).1 eid).map MobEnt.squished =
        some m.squished) := by
  refine ⟨?_, ?_, ?_, ?_⟩
  · intro hlt
    constructor
    · have heq : gang_step w p eid =
          upd_mob w eid (fun mb => { mb with vel := (m.tempo, mb.vel.2) }) := by
        simp [gang_step, hget, hlt]
      rw [heq, getMob_upd_mob_same w eid
        (fun mb => { mb with vel := (m.tempo, mb.vel.2) }) (fun x => rfl), hget]
      rfl
    · exact htempo
  · intro hgt
    constructor
    · have hnlt : ¬ p.pos.1 < m.pos.1 := by omega
      have heq : gang_step w p eid =
          upd_mob w eid (fun mb => { mb with vel := (-m.tempo, mb.vel.2) }) := by
        simp [gang_step, hget, hnlt, hgt]
      rw [heq, getMob_upd_mob_same w eid
        (fun mb => { mb with vel := (-m.tempo, mb.vel.2) }) (fun x => rfl), hget]
      rfl
    · omega
  · intro heq0
    have hnlt : ¬ p.pos.1 < m.pos.1 := by omega
    have hngt : ¬ p.pos.1 > m.pos.1 := by omega
    have heq : gang_step w p eid =
        upd_mob w eid (fun mb => { mb with vel := (m.vel.1, mb.vel.2) }) := by
      simp [gang_step, hget, hnlt, hngt]
    rw [heq, getMob_upd_mob_same w eid
      (fun mb => { mb with vel := (m.vel.1, mb.vel.2) }) (fun x => rfl), hget]
    rfl
  · intro d hd
    rw [gang_on_hit_side d hd w p eid m hget hkind]
    refine ⟨?_, ?_, ?_⟩
    · show p.health + (-1) = p.health - 1
      omega
    · show (getMob w eid).map MobEnt.tempo = some m.tempo
      rw [hget]
      rfl
    · show (getMob w eid).map MobEnt.squished = some m.squished
      rw [hget]
      rfl

/-- Witness for C8 on the concrete mob world: the player at x = 0 is to the
left of the gang at x = 40, so the step sets its horizontal velocity to the
negative tempo -80 with the vertical component kept, and a Left contact costs
the player one health while leaving the gang's tempo at -80. -/
theorem claim_C8_witness :
    (getMob (gang_step mobWorld playerW 2) 2).map MobEnt.vel = some (-80, 0) ∧
    (mob_on_hit Direction.L mobWorld playerW 2).2.health = playerW.health - 1 ∧
    (getMob (mob_on_hit Direction.L mobWorld playerW 2).1 2).map MobEnt.tempo =
      some (-80) := by
  have h := claim_C8_gang mobWorld playerW 2 gangEnt (by decide) (by decide) (by decide)
  have hside := h.2.2.2 Direction.L (Or.inl rfl)
  exact ⟨(h.1 (by decide)).1, hside.1, hside.2.1⟩

/-- C9: in a player-mob begin contact, an invincible player causes exactly the
removal of the mob (the player is untouched, so no damage, and on_hit never
runs); otherwise a shoot-capable player only loses that capability (the world
is untouched, so the mob is neither squished nor removed); the mob's on_hit
runs exactly when the player is neither invincible nor shoot-capable. -/
theorem claim_C9_player_mob (d : Direction) (w : World) (p : Player) (eid : Nat) :
    (p.niubi = true →
      handle_player_collide_mob d w p eid = (remove_mob w eid, p, true)) ∧
    (p.niubi = false → p.shoot = true →
      handle_player_collide_mob d w p eid = (w, { p with shoot := false }, true)) ∧
    (p.niubi = false → p.shoot = false →
      handle_player_collide_mob d w p eid =
        ((mob_on_hit d w p eid).1, (mob_on_hit d w p eid).2, true)) := by
  refine ⟨fun h => ?_, fun h1 h2 => ?_, fun h1 h2 => ?_⟩
  · simp [handle_player_collide_mob, h]
  · simp [handle_player_collide_mob, h1, h2]
  · simp [handle_player_collide_mob, h1, h2]

/-- Witness for C9: with the invincible player the mushroom is simply removed
and the player unchanged; with the shoot-capable player only the capability is
revoked and the world unchanged. -/
theorem claim_C9_witness :
    handle_player_collide_mob Direction.A mobWorld niubiPlayer 1 =
      (remove_mob mobWorld 1, niubiPlayer, true) ∧
    handle_player_collide_mob Direction.A mobWorld shootPlayer 1 =
      (mobWorld, { shootPlayer with shoot := false }, true) := by
  have h1 := claim_C9_player_mob Direction.A mobWorld niubiPlayer 1
  have h2 := claim_C9_player_mob Direction.A mobWorld shootPlayer 1
  exact ⟨h1.1 rfl, h2.2.1 rfl rfl⟩
